import Mathlib

/-
Verification of the khojkar research-agent core.

The Lean definitions below are a shallow embedding of the Python sources:
  src/core/re_act.py       (ReActAgent: the ReAct turn loop)
  src/core/tool.py         (Tool, ToolRegistry)
  src/core/cached_tool.py  (CachedTool)
  src/core/supervisor.py   (SupervisorAgent)
  src/core/rate_limiter.py (RateLimiter)
  src/memory/context.py    (InContextMemory)
  src/utils.py             (remove_thinking_output, extract_lang_block)

Modelling conventions:
  - Python ints are Int or Nat; the float arithmetic of the rate limiter is
    modelled exactly over the rationals.
  - Fallible code returns Except String with a message naming the Python
    exception class.
  - External collaborators (the completion service, tool implementations,
    child agents, the pydantic validator) enter as function parameters; the
    code under verification is everything around them.
  - Tool results are strings, matching the declared tool interface, so the
    serialization helper is the identity on this domain.
-/

/-- A requested tool invocation, as delivered by the completion service
    (litellm tool_call objects). The code does
    json.loads(tool_call.function.arguments); arguments are modelled in
    already-parsed form as a key-value list. -/
structure ToolCall where
  id : String
  name : String
  args : List (String × String)
deriving DecidableEq, Repr

/-- One conversation message, as stored by the memory: a dict with role,
    content (possibly None), optional tool_call_id and optional tool_calls. -/
structure Message where
  role : String
  content : Option String
  tool_call_id : Option String := none
  tool_calls : List ToolCall := []
deriving DecidableEq, Repr

/-- From src/memory/context.py, InContextMemory._num_tokens_from_string:
    len(string) // 4, and 0 for None. -/
def numTokensFromString : Option String → Int
  | none => 0
  | some s => (s.length : Int) / 4

/-- State of src/memory/context.py InContextMemory: system prompt, token
    ceiling, ordered messages (system prompt at index 0), running estimate. -/
structure InContextMemory where
  system_prompt : String
  max_tokens : Int
  messages : List Message
  total_tokens : Int
deriving DecidableEq, Repr

namespace InContextMemory

/-- InContextMemory.__init__. -/
def init (system_prompt : String) (max_tokens : Int) : InContextMemory :=
  { system_prompt := system_prompt
    max_tokens := max_tokens
    messages := [{ role := "user", content := some system_prompt }]
    total_tokens := numTokensFromString (some system_prompt) }

/-- InContextMemory._prune: while the estimate exceeds the ceiling and more
    than one message remains, pop the message at index 1 (the oldest
    non-system message) and subtract its estimated size. -/
def prune (mem : InContextMemory) : InContextMemory :=
  if mem.max_tokens < mem.total_tokens ∧ 1 < mem.messages.length then
    match h : mem.messages with
    | sys :: removed :: rest =>
        prune { mem with
                  messages := sys :: rest
                  total_tokens := mem.total_tokens - numTokensFromString removed.content }
    | _ => mem
  else mem
termination_by mem.messages.length
decreasing_by simp [h]

/-- InContextMemory.add: append the message, add its content estimate
    (message.get with default, so a missing or None content counts 0),
    then prune. -/
def add (mem : InContextMemory) (message : Message) : InContextMemory :=
  prune { mem with
            messages := mem.messages ++ [message]
            total_tokens := mem.total_tokens + numTokensFromString message.content }

/-- InContextMemory.clear: reset to just the system message. -/
def clear (mem : InContextMemory) : InContextMemory :=
  { mem with
      messages := [{ role := "user", content := some mem.system_prompt }]
      total_tokens := numTokensFromString (some mem.system_prompt) }

/-- InContextMemory.get_all. -/
def get_all (mem : InContextMemory) : List Message := mem.messages

end InContextMemory


/-- Behaviour of one registered tool, as the ReAct loop sees it
    (src/core/tool.py Tool / ToolProtocol): a name, an optional maximum
    result length, and the wrapped asynchronous callable. The callable is an
    external collaborator returning a string or raising; it is modelled as a
    function from the parsed keyword arguments to Except. -/
structure MTool where
  name : String
  max_result_length : Option Nat
  impl : List (String × String) → Except String String

/-- A ToolRegistry (src/core/tool.py): the dict name -> tool, as an
    association list in insertion order. ToolRegistry.get and __getitem__ do
    self.tools[name], so an absent name is a KeyError. -/
def registryGet (tools : List (String × MTool)) (name : String) : Option MTool :=
  tools.lookup name

/-- ToolRegistry.register: self.tools[tool.name] = tool. A duplicate name
    overwrites in place, as a Python dict does; a new name is appended. -/
def registryRegister (tools : List (String × MTool)) (tool : MTool) :
    List (String × MTool) :=
  if (tools.lookup tool.name).isSome then
    tools.map (fun p => if p.1 = tool.name then (tool.name, tool) else p)
  else
    tools ++ [(tool.name, tool)]

/-- ReActAgent._safe_json_serialize applied to a tool result. Tool results
    are strings in this embedding (the declared tool interface), and
    str(s) = s for a Python string. -/
def safeJsonSerialize (s : String) : String := s

/-- The synthetic failure text produced inside ReActAgent._call_tool. -/
def toolFailureText (name : String) : String :=
  "Tool call " ++ name ++ " failed, please try some other tool"

/-- Outcome of one ReActAgent._call_tool invocation: either a tool-result
    message was appended to the context memory, or an exception escaped the
    method (and will propagate through asyncio.gather and abort the run). -/
inductive CallOutcome where
  | appended (msg : Message)
  | raised (err : String)
deriving DecidableEq, Repr

/-- ReActAgent._call_tool (src/core/re_act.py lines 72 to 107).
    The registry lookup self.tool_registry.get(name) happens BEFORE the
    try block, so a KeyError from an unknown name is not converted into the
    synthetic failure message; it escapes. Inside the try, an exception or
    an empty result becomes the synthetic failure text; an oversize result
    is truncated when max_result_length is set and nonzero (Python
    truthiness of the int). The resulting dict with role tool is appended
    to the messages memory. -/
def callTool (tools : List (String × MTool)) (tc : ToolCall) : CallOutcome :=
  match registryGet tools tc.name with
  | none => .raised ("KeyError: " ++ tc.name)
  | some tool =>
      let afterTry : String :=
        match tool.impl tc.args with
        | .ok v => safeJsonSerialize v
        | .error _ => toolFailureText tc.name
      let afterEmptyCheck : String :=
        if afterTry = "" then toolFailureText tc.name else afterTry
      let afterTruncation : String :=
        match tool.max_result_length with
        | some m =>
            if m ≠ 0 ∧ m < afterEmptyCheck.length then
              afterEmptyCheck.take m ++ "\n\n[Content truncated due to length...]"
            else afterEmptyCheck
        | none => afterEmptyCheck
      .appended { role := "tool", content := some afterTruncation, tool_call_id := some tc.id }

/-- Boolean discriminator: did _call_tool append a tool-result message
    (as opposed to letting an exception escape)? -/
def CallOutcome.isAppendedOutcome : CallOutcome → Bool
  | .appended _ => true
  | .raised _ => false

/-- Sequential model of asyncio.gather over the semaphore-wrapped
    _call_tool coroutines in ReActAgent.run: every appended tool message
    lands in the memory; the first escaping exception aborts the batch and
    propagates. (The within-turn append order is scheduler dependent; no
    claim here depends on it. The bounded-concurrency discipline of the
    semaphore itself is modelled separately as a transition system below.) -/
def processToolCalls (tools : List (String × MTool)) (mem : InContextMemory) :
    List ToolCall → InContextMemory × Option String
  | [] => (mem, none)
  | tc :: rest =>
      match callTool tools tc with
      | .appended msg => processToolCalls tools (mem.add msg) rest
      | .raised e => (mem, some e)

/-- The coarse Python type categories used by the type_map dict inside
    Tool._generate_schema (src/core/tool.py). The annotated constructor
    stands for str, int, float, bool, list, dict or NoneType; any other or
    missing annotation maps to no entry, which type_map.get turns into
    None. -/
inductive PyAnn where
  | pystr
  | pyint
  | pyfloat
  | pybool
  | pylist
  | pydict
  | pynoneType
  | pyother
deriving DecidableEq, Repr

/-- The type_map dict get applied to the parameter annotation in
    Tool._generate_schema: the JSON
    schema type name, or None when the annotation has no entry. The dict
    get never raises, so the KeyError branch in the source is dead code. -/
def typeMap : PyAnn → Option String
  | .pystr => some "string"
  | .pyint => some "integer"
  | .pyfloat => some "number"
  | .pybool => some "boolean"
  | .pylist => some "array"
  | .pydict => some "object"
  | .pynoneType => some "null"
  | .pyother => none

/-- One parameter of the wrapped callable, as inspect.signature reports it:
    its name, its coarse type category, and whether it declares a default
    value (param.default == inspect._empty marks it required). -/
structure PyParam where
  name : String
  ann : PyAnn
  hasDefault : Bool
deriving DecidableEq, Repr

/-- The output of the external docstring parsing library on
    inspect.getdoc(func) or the empty string: a short description (None for
    an absent or empty docstring) and per-parameter descriptions in
    declaration order. -/
structure ParsedDocstring where
  short_description : Option String
  params : List (String × String)
deriving DecidableEq, Repr

/-- The facts about the wrapped Python callable that Tool.__init__ and
    Tool._generate_schema inspect: whether it is a coroutine function,
    whether inspect.signature succeeds on it, its parameters, and its
    parsed docstring. -/
structure PyCallable where
  isCoroutineFunction : Bool
  signatureAvailable : Bool
  params : List PyParam
  doc : ParsedDocstring
deriving DecidableEq, Repr

/-- Python string-or on optionals: a or b is a unless a is None or the
    empty string (both falsy). -/
def pyStrOr (a : Option String) (b : String) : String :=
  match a with
  | some s => if s = "" then b else s
  | none => b

/-- The function schema dict Tool._generate_schema returns: name, final
    description, properties (parameter name to type/description) and the
    required-parameter list. -/
structure ToolSchema where
  name : String
  description : String
  properties : List (String × (Option String × String))
  required : List String
deriving DecidableEq, Repr

/-- Tool._generate_schema (src/core/tool.py lines 49 to 131): fails only
    when inspect.signature fails; maps each parameter to its coarse type
    and its docstring description (empty when missing, with a logged
    warning); marks parameters without defaults required; and computes
    final_description = self.description or docstring_description or ""
    with Python or-truthiness, so a missing description falls back to the
    empty string instead of raising. -/
def generateSchema (toolName : String) (explicitDescription : Option String)
    (func : PyCallable) : Except String ToolSchema :=
  if !func.signatureAvailable then
    .error ("ValueError: Failed to get signature for function " ++ toolName)
  else
    .ok
      { name := toolName
        description :=
          pyStrOr explicitDescription (pyStrOr func.doc.short_description "")
        properties :=
          func.params.map (fun p =>
            (p.name, (typeMap p.ann, (func.doc.params.lookup p.name).getD "")))
        required := (func.params.filter (fun p => !p.hasDefault)).map (fun p => p.name) }

/-- A constructed Tool object (src/core/tool.py Tool): the fields set by
    __init__ once the checks pass. -/
structure ToolDef where
  name : String
  max_result_length : Option Nat
  description : Option String
  schema : ToolSchema
deriving DecidableEq, Repr

/-- Tool.__init__ (src/core/tool.py lines 32 to 47): raises ValueError at
    construction time when the callable is not a coroutine function, then
    builds the schema (which can raise only for a missing signature). -/
def toolInit (name : String) (func : PyCallable) (max_result_length : Option Nat)
    (description : Option String) : Except String ToolDef :=
  if !func.isCoroutineFunction then
    .error ("ValueError: Tool " ++ name ++
      " must use async functions. Please use asynchronous callables only.")
  else
    match generateSchema name description func with
    | .error e => .error e
    | .ok schema =>
        .ok { name := name, max_result_length := max_result_length
              description := description, schema := schema }

/-- Code points of a string, the order json.dumps and Python sorted compare
    keys by. -/
def strCodes (s : String) : List Nat := s.data.map Char.toNat

/-- Python string less-or-equal: lexicographic on code points. -/
def keyLe (a b : String) : Prop := strCodes a ≤ strCodes b

instance : DecidableRel keyLe :=
  fun a b => inferInstanceAs (Decidable (strCodes a ≤ strCodes b))

/-- The ascending key order that json.dumps(obj, sort_keys=True) serializes
    a dict in, realized as an insertion sort. -/
def sortKeys (ks : List String) : List String := List.insertionSort keyLe ks

/-- A JSON string literal. The argument strings are uninterpreted payloads
    here, so escaping inside them is not modelled. -/
def jsonStringLit (s : String) : String := "\"" ++ s ++ "\""

/-- json.dumps(kwargs, sort_keys=True) on a keyword-argument dict: the keys
    in ascending order, each with its value, default separators. Keys of a
    Python dict are unique, so each sorted key carries its unique value. -/
def dumpsSortKeys (kwargs : List (String × String)) : String :=
  "\x7b" ++
    String.intercalate ", "
      ((sortKeys (kwargs.map Prod.fst)).map
        (fun k => jsonStringLit k ++ ": " ++ jsonStringLit ((kwargs.lookup k).getD ""))) ++
    "\x7d"

/-- The cache key CachedTool.__call__ computes:
    f-string of the tool name, a colon, and the canonical serialization.
    (The TypeError fallback for unserializable arguments is outside this
    argument domain: string-valued keyword arguments always serialize.) -/
def cacheKey (toolName : String) (kwargs : List (String × String)) : String :=
  toolName ++ ":" ++ dumpsSortKeys kwargs

/-- DEFAULT_CACHE_TTL from src/core/cached_tool.py: one day in seconds. -/
def DEFAULT_CACHE_TTL : ℚ := 86400

/-- The diskcache store, keyed by string, holding the raw value and its
    absolute expiry instant. -/
structure CacheStore where
  find : String → Option (String × ℚ)

/-- cache.get(key, default=None): the stored value while it has not
    expired. -/
def CacheStore.get (c : CacheStore) (now : ℚ) (k : String) : Option String :=
  match c.find k with
  | some (v, expireAt) => if now < expireAt then some v else none
  | none => none

/-- cache.set(key, value, expire=ttl): store with absolute expiry now+ttl. -/
def CacheStore.set (c : CacheStore) (now : ℚ) (k v : String) (ttl : ℚ) : CacheStore :=
  ⟨fun k2 => if k2 = k then some (v, now + ttl) else c.find k2⟩

/-- CachedTool.__call__ (src/core/cached_tool.py lines 53 to 75): compute
    the key; on a hit return the cached value without invoking the
    delegate; on a miss invoke the delegate, store the result with the
    fixed TTL, and return it. The returned Bool records whether the
    delegate was invoked. A raising delegate propagates and stores
    nothing. -/
def cachedCall (tool : MTool) (cache : CacheStore) (now : ℚ)
    (kwargs : List (String × String)) : Except String String × CacheStore × Bool :=
  let key := cacheKey tool.name kwargs
  match cache.get now key with
  | some v => (.ok v, cache, false)
  | none =>
      match tool.impl kwargs with
      | .ok result => (.ok result, cache.set now key result DEFAULT_CACHE_TTL, true)
      | .error e => (.error e, cache, true)

/-- A child agent as the supervisor sees it (src/core/supervisor.py): a
    name and its run coroutine, which takes the optional extra_prompt
    argument and returns a result or raises. The child is a collaborator
    driven by its own loop, so it enters as a function. -/
structure ChildAgent where
  name : String
  runChild : Option String → Except String String

/-- The supervisor agent registry: the dict comprehension
    agent.name -> agent over the children list. -/
def agentRegistryOf (children : List ChildAgent) : List (String × ChildAgent) :=
  children.map (fun a => (a.name, a))

/-- SupervisorAgent._route_to_agent (src/core/supervisor.py lines 79 to
    95): raise ValueError when the agent name is not in the registry;
    otherwise read kwargs of the key kwargs (a KeyError when the caller did
    not pass one), and run the child with extra_prompt when that payload is
    truthy, with no arguments otherwise. -/
def routeToAgent (agentRegistry : List (String × ChildAgent)) (agent_name : String)
    (kwargs : List (String × String)) : Except String String :=
  match agentRegistry.lookup agent_name with
  | none => .error ("ValueError: Agent " ++ agent_name ++ " not found in registry")
  | some agent =>
      match kwargs.lookup "kwargs" with
      | none => .error "KeyError: kwargs"
      | some actual =>
          if actual = "" then agent.runChild none
          else agent.runChild (some actual)

/-- The synthetic handoff tool the SupervisorAgent constructor registers:
    a FunctionTool named handoff_to_agent wrapping _route_to_agent. The
    tool call arguments bind agent_name; every other key lands in the
    **kwargs of _route_to_agent. A missing agent_name is a TypeError from
    the call itself. -/
def handoffToolFor (children : List ChildAgent) : MTool :=
  { name := "handoff_to_agent"
    max_result_length := none
    impl := fun args =>
      match args.lookup "agent_name" with
      | none => .error "TypeError: missing required argument agent_name"
      | some a =>
          routeToAgent (agentRegistryOf children) a
            (args.filter (fun p => p.1 ≠ "agent_name")) }

/-- The SupervisorAgent constructor registers the handoff tool unless a
    tool of that name is already present. -/
def supervisorToolRegistry (tools : List (String × MTool)) (children : List ChildAgent) :
    List (String × MTool) :=
  if (tools.lookup "handoff_to_agent").isSome then tools
  else registryRegister tools (handoffToolFor children)

/-- Mutable state of a RateLimiter with rate > 0 (src/core/rate_limiter.py):
    the current token count and the monotonic instant of the last refill.
    The float arithmetic is modelled exactly over the rationals. -/
structure RLState where
  tokens : ℚ
  last_refill_time : ℚ
deriving DecidableEq, Repr

/-- RateLimiter._refill_tokens at monotonic instant now: credit elapsed
    time times the refill rate, capped at capacity, and stamp the refill
    time. -/
def refillTokens (capacity tokensPerSecond : ℚ) (s : RLState) (now : ℚ) : RLState :=
  { tokens := min capacity (s.tokens + (now - s.last_refill_time) * tokensPerSecond)
    last_refill_time := now }

/-- RateLimiter.acquire started at monotonic instant now: refill, and if
    fewer than 1.0 tokens are available, sleep exactly
    (1 - tokens)/tokensPerSecond and refill again, then consume 1.0.
    Returns the completion instant and the state after. With exact
    arithmetic the while loop exits after at most one sleep (theorem
    rateLimiter_one_sleep_suffices below), so that single unrolling is the
    loop. -/
def rlAcquire (capacity tps : ℚ) (s : RLState) (now : ℚ) : ℚ × RLState :=
  let s1 := refillTokens capacity tps s now
  if s1.tokens < 1 then
    let waitTime := (1 - s1.tokens) / tps
    let s2 := refillTokens capacity tps s1 (now + waitTime)
    (now + waitTime, { s2 with tokens := s2.tokens - 1 })
  else
    (now, { s1 with tokens := s1.tokens - 1 })

/-- RateLimiter.__init__ with requests_per_minute = R > 0: capacity R,
    tokens R, a fresh monotonic stamp (taken as instant 0). -/
def rlInit (R : ℕ) : RLState := { tokens := (R : ℚ), last_refill_time := 0 }

/-- N sequential acquire calls with no other waits, starting at instant 0
    on a fresh limiter: each call starts at the instant the previous one
    completed. Returns the completion instant of the last call and the
    final state. -/
def seqAcquire (R : ℕ) : ℕ → ℚ × RLState
  | 0 => (0, rlInit R)
  | n + 1 =>
      rlAcquire (R : ℚ) ((R : ℚ) / 60) (seqAcquire R n).2 (seqAcquire R n).1

/-- Phase of one semaphore-wrapped tool call inside
    ReActAgent._throttle_tool_calls: before the async-with acquires the
    semaphore, inside the guarded region (the delegate call in flight),
    or finished (semaphore released). -/
inductive TaskPhase where
  | waitingPhase
  | runningPhase
  | donePhase
deriving DecidableEq, Repr

/-- Joint state of the K semaphore_wrapper coroutines of one turn and the
    asyncio.Semaphore counter. -/
structure ThrottleState where
  phases : List TaskPhase
  semValue : Nat
deriving DecidableEq, Repr

/-- The semaphore of one turn: asyncio.Semaphore(max_concurrent_tool_calls)
    with all K wrappers created and not yet started. -/
def initThrottle (K M : Nat) : ThrottleState :=
  { phases := List.replicate K .waitingPhase, semValue := M }

/-- Interleaving semantics of the semaphore discipline: a waiting wrapper
    may enter the guarded region only while the counter is positive,
    decrementing it; a running wrapper may finish, incrementing it. The
    event loop may schedule these in any order. -/
inductive ThrottleStep : ThrottleState → ThrottleState → Prop where
  | acquireSem (s : ThrottleState) (i : Nat)
      (hi : s.phases[i]? = some .waitingPhase) (hsem : 0 < s.semValue) :
      ThrottleStep s { phases := s.phases.set i .runningPhase, semValue := s.semValue - 1 }
  | releaseSem (s : ThrottleState) (i : Nat)
      (hi : s.phases[i]? = some .runningPhase) :
      ThrottleStep s { phases := s.phases.set i .donePhase, semValue := s.semValue + 1 }

/-- Number of delegate tool calls in flight. -/
def inFlight (s : ThrottleState) : Nat := s.phases.count .runningPhase

/-- Index of the first occurrence of pat in hay, scanning left to right
    (re.search position semantics). -/
def findSubAux (pat : List Char) : List Char → Nat → Option Nat
  | [], i => if pat = [] then some i else none
  | h :: t, i =>
      if (h :: t).take pat.length = pat then some i else findSubAux pat t (i + 1)

/-- First occurrence of pat in hay. -/
def findSub (hay pat : List Char) : Option Nat := findSubAux pat hay 0

/-- One re.sub pass for the pattern think-open, lazy any, think-close with
    DOTALL (src/utils.py remove_thinking_output): repeatedly locate the
    leftmost open tag, pair it with the earliest following close tag, drop
    that span, and continue after it. The fuel argument bounds the
    recursion; the input length is always enough, since every removed span
    has at least 15 characters. -/
def removeThinkingAux : Nat → List Char → List Char
  | 0, s => s
  | fuel + 1, s =>
      match findSub s "<think>".data with
      | none => s
      | some i =>
          let rest := s.drop (i + 7)
          match findSub rest "</think>".data with
          | none => s
          | some j => s.take i ++ removeThinkingAux fuel (rest.drop (j + 8))

/-- utils.remove_thinking_output on a Python str. (In the loop the code
    applies it to message.content, which raises TypeError when the content
    is None; the loop model reflects that at its call site.) -/
def removeThinkingOutput (text : String) : String :=
  String.mk (removeThinkingAux text.data.length text.data)

/-- utils.extract_lang_block with language json and ensure_block False:
    the stripped contents of the first fenced json block, or the whole
    text stripped when no block matches. -/
def extractJsonBlock (text : String) : String :=
  let s := text.data
  match findSub s "```json\n".data with
  | none => (String.mk s).trim
  | some i =>
      let rest := s.drop (i + 8)
      match findSub rest "\n```".data with
      | none => (String.mk s).trim
      | some j => (String.mk (rest.take j)).trim

/-- The structured-output collaborator of a ReActAgent: the JSON schema
    text that model_json_schema serializes, and model_validate_json as a
    function returning the validated value or the validation error. -/
structure OutputSchema where
  schemaJson : String
  validate : String → Except String String

/-- One completion-service reply (response.choices[0].message plus
    finish_reason): optional text content, requested tool invocations, and
    the finish reason. -/
structure ChatReply where
  content : Option String
  tool_calls : List ToolCall
  finish_reason : String

/-- Configuration of a ReActAgent (src/core/re_act.py __init__), the
    fields the run loop reads. default_temperature and
    max_concurrent_tool_calls only shape the completion request and the
    semaphore, which are modelled as the oracle and the throttle system. -/
structure AgentConfig where
  name : String
  description : String
  model : String
  prompt : String
  tool_registry : List (String × MTool)
  max_steps : Nat
  output_schema : Option OutputSchema

/-- Mutable per-agent state: the owned messages memory and the step
    counter. __init__ sets current_step := 0 and builds the memory with a
    ceiling of 1000000000. -/
structure AgentState where
  messages : InContextMemory
  current_step : Nat

/-- ReActAgent._prompt_model_to_format_response: append the reformatting
    instruction, issue one more completion call, sanitize, extract the
    json block, and validate; a validation failure is fatal for the run.
    Returns the result and the memory after. -/
def promptModelToFormatResponse (schema : OutputSchema) (oracle : Nat → ChatReply)
    (callIdx : Nat) (mem : InContextMemory) : (Except String String) × InContextMemory :=
  let mem1 := mem.add
    { role := "user"
      content := some ("Please format the response as JSON according to the following JSON Schema: \n"
        ++ schema.schemaJson) }
  let response := oracle callIdx
  match response.content with
  | none => (.error "TypeError: expected string or bytes-like object", mem1)
  | some c => (schema.validate (extractJsonBlock (removeThinkingOutput c)), mem1)

/-- Result of ReActAgent.run: the returned assistant message
    (response.choices[0].message, its raw content and tool call list), a
    validated structured output, or a propagated exception. -/
inductive RunResult where
  | finalMessage (content : Option String) (tool_calls : List ToolCall)
  | structured (value : String)
  | error (e : String)
deriving Repr

/-- The for-loop body of ReActAgent.run (src/core/re_act.py lines 145 to
    196), with the remaining range as fuel and the index of the next
    completion call. Per turn: increment current_step; call the completion
    service; sanitize the content (a None content is a TypeError inside
    remove_thinking_output); append the assistant message; with no tool
    calls either fail for a non-stop finish reason, or return the raw
    message (after the optional structured-output reformatting); with tool
    calls execute them and continue. Exhausted fuel is the StopIteration
    after the loop. The third component counts the turns executed. -/
def runTurns (cfg : AgentConfig) (oracle : Nat → ChatReply) :
    Nat → Nat → AgentState → RunResult × AgentState × Nat
  | 0, _, st => (.error "StopIteration: Reached maximum number of steps", st, 0)
  | fuel + 1, callIdx, st =>
      let st1 : AgentState := { st with current_step := st.current_step + 1 }
      let response := oracle callIdx
      match response.content with
      | none => (.error "TypeError: expected string or bytes-like object", st1, 1)
      | some c =>
          let sanitized := removeThinkingOutput c
          let assistantMsg : Message :=
            { role := "assistant", content := some sanitized
              tool_calls := response.tool_calls }
          let st2 : AgentState := { st1 with messages := st1.messages.add assistantMsg }
          if response.tool_calls = [] then
            if response.finish_reason ≠ "stop" then
              (.error ("StopIteration: Agent failed to stop, stop reason - "
                ++ response.finish_reason), st2, 1)
            else
              match cfg.output_schema with
              | none => (.finalMessage (some c) response.tool_calls, st2, 1)
              | some schema =>
                  match promptModelToFormatResponse schema oracle (callIdx + 1) st2.messages with
                  | (.ok v, mem2) => (.structured v, { st2 with messages := mem2 }, 1)
                  | (.error e, mem2) => (.error e, { st2 with messages := mem2 }, 1)
          else
            match processToolCalls cfg.tool_registry st2.messages response.tool_calls with
            | (mem2, none) =>
                let next := runTurns cfg oracle fuel (callIdx + 1) { st2 with messages := mem2 }
                (next.1, next.2.1, next.2.2 + 1)
            | (mem2, some e) => (.error e, { st2 with messages := mem2 }, 1)

/-- json.dumps of the kwargs dict passed to run, insertion order
    (safe_json_serialize on a dict). -/
def dumpsKwargs (kwargs : List (String × String)) : String :=
  "\x7b" ++
    String.intercalate ", "
      (kwargs.map (fun p => jsonStringLit p.1 ++ ": " ++ jsonStringLit p.2)) ++
    "\x7d"

/-- ReActAgent.run (src/core/re_act.py lines 136 to 196): clear the
    messages memory, add the serialized kwargs as a user message when
    nonempty, then run up to max_steps turns. The completion service is
    the oracle, indexed by the completion calls issued in this run. -/
def runAgent (cfg : AgentConfig) (oracle : Nat → ChatReply)
    (kwargs : List (String × String)) (st : AgentState) : RunResult × AgentState × Nat :=
  let mem0 := InContextMemory.init cfg.prompt 1000000000
  let mem1 :=
    if kwargs = [] then mem0
    else mem0.add { role := "user", content := some (dumpsKwargs kwargs) }
  runTurns cfg oracle cfg.max_steps 0 { messages := mem1, current_step := st.current_step }

/-- A sequence of run invocations on one agent object, each with its own
    completion-service behaviour and kwargs, threading the mutable agent
    state. Returns the final state and the total number of turns
    executed. -/
def runSeq (cfg : AgentConfig) :
    List ((Nat → ChatReply) × List (String × String)) → AgentState → AgentState × Nat
  | [], st => (st, 0)
  | (oracle, kwargs) :: rest, st =>
      let one := runAgent cfg oracle kwargs st
      let more := runSeq cfg rest one.2.1
      (more.1, one.2.2 + more.2)


namespace InContextMemory

theorem exists_cons_cons_of_lt_length {l : List Message} (h : 1 < l.length) :
    ∃ a b rest, l = a :: b :: rest := by
  match l with
  | [] => simp at h
  | [x] => simp at h
  | a :: b :: rest => exact ⟨a, b, rest, rfl⟩

theorem prune_max_tokens (mem : InContextMemory) : (prune mem).max_tokens = mem.max_tokens := by
  induction mem using prune.induct with
  | case1 mem h sys removed rest hm ih =>
      rw [prune, if_pos h, hm]
      exact ih
  | case2 mem h1 himp =>
      obtain ⟨a, b, rest, hx⟩ := exists_cons_cons_of_lt_length h1.2
      exact (himp a b rest hx).elim
  | case3 mem h =>
      rw [prune, if_neg h]

theorem prune_guard_false (mem : InContextMemory) :
    (prune mem).total_tokens ≤ (prune mem).max_tokens ∨ (prune mem).messages.length ≤ 1 := by
  induction mem using prune.induct with
  | case1 mem h sys removed rest hm ih =>
      rw [prune, if_pos h, hm]
      exact ih
  | case2 mem h1 himp =>
      obtain ⟨a, b, rest, hx⟩ := exists_cons_cons_of_lt_length h1.2
      exact (himp a b rest hx).elim
  | case3 mem h =>
      rw [prune, if_neg h]
      omega

theorem prune_suffix (mem : InContextMemory) :
    ∃ k, (prune mem).messages = mem.messages.take 1 ++ (mem.messages.drop 1).drop k := by
  induction mem using prune.induct with
  | case1 mem h sys removed rest hm ih =>
      rw [prune, if_pos h, hm]
      obtain ⟨k, hk⟩ := ih
      refine ⟨k + 1, ?_⟩
      simp only [hm, List.take, List.drop, List.drop_succ_cons]
      simpa [List.take, List.drop] using hk
  | case2 mem h1 himp =>
      obtain ⟨a, b, rest, hx⟩ := exists_cons_cons_of_lt_length h1.2
      exact (himp a b rest hx).elim
  | case3 mem h =>
      rw [prune, if_neg h]
      refine ⟨0, ?_⟩
      match hx : mem.messages with
      | [] => simp
      | x :: xs => simp

theorem prune_length_pos (mem : InContextMemory) (h : 1 ≤ mem.messages.length) :
    1 ≤ (prune mem).messages.length := by
  obtain ⟨k, hk⟩ := prune_suffix mem
  rw [hk]
  match hx : mem.messages with
  | [] => simp [hx] at h
  | x :: xs => simp [hx]

theorem prune_head (mem : InContextMemory) :
    (prune mem).messages.head? = mem.messages.head? := by
  obtain ⟨k, hk⟩ := prune_suffix mem
  rw [hk]
  match hx : mem.messages with
  | [] => simp
  | x :: xs => simp


end InContextMemory

/-- C3: after every add on an InContextMemory the reported estimate is at
    most the ceiling unless only the message at index 0 remains; the message
    at index 0 is never evicted; and every eviction removes oldest non-system
    messages, so the result is the index-0 message followed by a suffix of
    the remaining queue. -/
theorem C3_inContextMemory_add_invariant (mem : InContextMemory) (msg : Message)
    (hne : mem.messages ≠ []) :
    ((mem.add msg).total_tokens ≤ mem.max_tokens ∨ (mem.add msg).messages.length = 1)
    ∧ (mem.add msg).messages.head? = mem.messages.head?
    ∧ ∃ k, (mem.add msg).messages =
        (mem.messages ++ [msg]).take 1 ++ (((mem.messages ++ [msg]).drop 1).drop k) := by
  unfold InContextMemory.add
  set mem2 : InContextMemory :=
    { mem with
        messages := mem.messages ++ [msg]
        total_tokens := mem.total_tokens + numTokensFromString msg.content } with hmem2
  have hlen : 1 ≤ mem2.messages.length := by
    simp [hmem2]
  refine ⟨?_, ?_, ?_⟩
  · have h1 := InContextMemory.prune_guard_false mem2
    have h2 := InContextMemory.prune_max_tokens mem2
    have h3 := InContextMemory.prune_length_pos mem2 hlen
    have hmax : mem2.max_tokens = mem.max_tokens := by simp [hmem2]
    omega
  · rw [InContextMemory.prune_head mem2]
    simp [hmem2]
    match hx : mem.messages with
    | [] => exact absurd hx hne
    | x :: xs => simp
  · exact InContextMemory.prune_suffix mem2

/-- C3 witness: concrete instantiation of the add invariant, with a memory
    whose ceiling 2 forces an eviction. -/
theorem C3_witness :
    (((InContextMemory.init "sys prompt here" 2).add
        { role := "user", content := some "a twelve char" }).total_tokens
      ≤ (InContextMemory.init "sys prompt here" 2).max_tokens
    ∨ ((InContextMemory.init "sys prompt here" 2).add
        { role := "user", content := some "a twelve char" }).messages.length = 1)
    ∧ ((InContextMemory.init "sys prompt here" 2).add
        { role := "user", content := some "a twelve char" }).messages.head?
      = (InContextMemory.init "sys prompt here" 2).messages.head?
    ∧ ∃ k, ((InContextMemory.init "sys prompt here" 2).add
        { role := "user", content := some "a twelve char" }).messages
      = ((InContextMemory.init "sys prompt here" 2).messages
          ++ [({ role := "user", content := some "a twelve char" } : Message)]).take 1
        ++ ((((InContextMemory.init "sys prompt here" 2).messages
          ++ [({ role := "user", content := some "a twelve char" } : Message)]).drop 1).drop k) :=
  C3_inContextMemory_add_invariant (InContextMemory.init "sys prompt here" 2)
    { role := "user", content := some "a twelve char" } (by decide)

theorem callTool_found_appends (tools : List (String × MTool)) (tc : ToolCall)
    (t : MTool) (h : registryGet tools tc.name = some t) :
    (callTool tools tc).isAppendedOutcome = true := by
  simp [callTool, h, CallOutcome.isAppendedOutcome]

/-- C1 (corrected): the claim as stated is false. In ReActAgent._call_tool
    the registry lookup happens before the try block, so a requested tool
    name absent from the registry raises a KeyError that escapes _call_tool
    and aborts the batch with no synthetic tool-result message; only
    failures of the looked-up tool itself are converted into the synthetic
    message. -/
theorem C1_unknown_tool_lookup_escapes (tools : List (String × MTool)) (tc : ToolCall)
    (mem : InContextMemory) (rest : List ToolCall) :
    (registryGet tools tc.name = none →
      callTool tools tc = .raised ("KeyError: " ++ tc.name)
      ∧ processToolCalls tools mem (tc :: rest) = (mem, some ("KeyError: " ++ tc.name)))
    ∧ (∀ t, registryGet tools tc.name = some t →
      (callTool tools tc).isAppendedOutcome = true) := by
  constructor
  · intro h
    constructor
    · simp [callTool, h]
    · simp [processToolCalls, callTool, h]
  · intro t h
    exact callTool_found_appends tools tc t h

/-- C1 counterexample: with an empty registry, _call_tool on the requested
    tool name web_search lets the lookup error escape instead of appending
    a synthetic tool-result message, refuting the claimed conversion. -/
theorem C1_claim_counterexample :
    (callTool [] { id := "call_1", name := "web_search", args := [] }).isAppendedOutcome = false
    ∧ callTool [] { id := "call_1", name := "web_search", args := [] }
        = .raised ("KeyError: " ++ "web_search") := by
  constructor
  · decide
  · rfl

/-- C1 witness: the amended theorem applied to the empty registry. -/
theorem C1_witness :
    callTool [] { id := "call_7", name := "arxiv_search", args := [] }
      = .raised ("KeyError: " ++ "arxiv_search")
    ∧ processToolCalls [] (InContextMemory.init "sys" 100)
        [{ id := "call_7", name := "arxiv_search", args := [] }]
      = (InContextMemory.init "sys" 100, some ("KeyError: " ++ "arxiv_search")) :=
  (C1_unknown_tool_lookup_escapes [] { id := "call_7", name := "arxiv_search", args := [] }
    (InContextMemory.init "sys" 100) []).1 rfl

/-- C6 (corrected): the claim as stated is false. The ValueError that
    SupervisorAgent._route_to_agent raises for an unknown agent name is
    raised inside the handoff tool invocation, which in
    ReActAgent._call_tool sits inside the try block; it is caught and
    converted into the synthetic tool-failure message, and the turn
    continues. It does not propagate to the caller. -/
theorem C6_unknown_agent_handoff_isolated (children : List ChildAgent)
    (args : List (String × String)) (id a : String) (mem : InContextMemory)
    (h1 : args.lookup "agent_name" = some a)
    (h2 : (agentRegistryOf children).lookup a = none) :
    callTool (supervisorToolRegistry [] children)
        { id := id, name := "handoff_to_agent", args := args }
      = .appended { role := "tool", content := some (toolFailureText "handoff_to_agent")
                    tool_call_id := some id }
    ∧ processToolCalls (supervisorToolRegistry [] children) mem
        [{ id := id, name := "handoff_to_agent", args := args }]
      = (mem.add { role := "tool", content := some (toolFailureText "handoff_to_agent")
                   tool_call_id := some id }, none) := by
  have hreg : registryGet (supervisorToolRegistry [] children) "handoff_to_agent"
      = some (handoffToolFor children) := by
    simp [supervisorToolRegistry, registryRegister, registryGet, handoffToolFor, List.lookup]
  have hcall : callTool (supervisorToolRegistry [] children)
      { id := id, name := "handoff_to_agent", args := args }
      = .appended { role := "tool", content := some (toolFailureText "handoff_to_agent")
                    tool_call_id := some id } := by
    simp only [callTool, hreg, handoffToolFor, h1, routeToAgent, h2]
    simp [toolFailureText]
  refine ⟨hcall, ?_⟩
  simp [processToolCalls, hcall]

/-- C6 counterexample: a supervisor with one child named planner, handed a
    handoff call for the unknown name ghost, appends the synthetic failure
    message (the lookup error is caught, not propagated). -/
theorem C6_claim_counterexample :
    (callTool (supervisorToolRegistry []
        [{ name := "planner", runChild := fun _ => .ok "plan done" }])
        { id := "call_9", name := "handoff_to_agent", args := [("agent_name", "ghost")] }).isAppendedOutcome
      = true := by
  decide

/-- C6 witness: the amended theorem applied to the planner-only registry. -/
theorem C6_witness :
    callTool (supervisorToolRegistry []
        [{ name := "planner", runChild := fun _ => .ok "plan done" }])
        { id := "call_2", name := "handoff_to_agent", args := [("agent_name", "writer")] }
      = .appended { role := "tool", content := some (toolFailureText "handoff_to_agent")
                    tool_call_id := some "call_2" }
    ∧ processToolCalls (supervisorToolRegistry []
          [{ name := "planner", runChild := fun _ => .ok "plan done" }])
        (InContextMemory.init "sup" 1000)
        [{ id := "call_2", name := "handoff_to_agent", args := [("agent_name", "writer")] }]
      = ((InContextMemory.init "sup" 1000).add
          { role := "tool", content := some (toolFailureText "handoff_to_agent")
            tool_call_id := some "call_2" }, none) :=
  C6_unknown_agent_handoff_isolated
    [{ name := "planner", runChild := fun _ => .ok "plan done" }]
    [("agent_name", "writer")] "call_2" "writer" (InContextMemory.init "sup" 1000)
    rfl rfl

/-- C7 (corrected): the not-async check does raise at construction time,
    but a missing description does not: Tool._generate_schema computes
    final_description with Python or-truthiness and falls back to the
    empty string. Construction fails only for a non-coroutine callable or
    an unavailable signature. -/
theorem C7_tool_construction_checks (name : String) (func : PyCallable)
    (mrl : Option Nat) (desc : Option String) :
    (func.isCoroutineFunction = false →
      toolInit name func mrl desc
        = .error ("ValueError: Tool " ++ name ++
            " must use async functions. Please use asynchronous callables only."))
    ∧ (func.isCoroutineFunction = true → func.signatureAvailable = true →
      toolInit name func mrl desc
        = .ok { name := name, max_result_length := mrl, description := desc
                schema :=
                  { name := name
                    description := pyStrOr desc (pyStrOr func.doc.short_description "")
                    properties := func.params.map (fun p =>
                      (p.name, (typeMap p.ann, (func.doc.params.lookup p.name).getD "")))
                    required := (func.params.filter (fun p => !p.hasDefault)).map
                      (fun p => p.name) } }) := by
  constructor
  · intro h
    simp [toolInit, h]
  · intro h1 h2
    simp [toolInit, h1, generateSchema, h2]

/-- C7 counterexample: an async callable with no docstring and no explicit
    description is accepted at construction time with an empty schema
    description, refuting the claimed construction-time error for a
    missing description. -/
theorem C7_claim_counterexample :
    toolInit "fetch"
        { isCoroutineFunction := true, signatureAvailable := true, params := []
          doc := { short_description := none, params := [] } } none none
      = .ok { name := "fetch", max_result_length := none, description := none
              schema := { name := "fetch", description := "", properties := []
                          required := [] } } := by
  rfl

/-- C7 witness: the amended theorem applied to a non-async callable. -/
theorem C7_witness :
    toolInit "scrape"
        { isCoroutineFunction := false, signatureAvailable := true, params := []
          doc := { short_description := some "scrapes", params := [] } } none none
      = .error ("ValueError: Tool " ++ "scrape" ++
          " must use async functions. Please use asynchronous callables only.") :=
  (C7_tool_construction_checks "scrape"
    { isCoroutineFunction := false, signatureAvailable := true, params := []
      doc := { short_description := some "scrapes", params := [] } } none none).1 rfl

theorem charToNat_injective : Function.Injective Char.toNat := by
  intro a b h
  apply Char.ext
  unfold Char.toNat at h
  exact UInt32.toNat.inj h

theorem strCodes_injective : Function.Injective strCodes := by
  intro s t h
  apply String.ext
  unfold strCodes at h
  exact List.map_injective_iff.mpr charToNat_injective h

theorem lookup_isSome_iff_mem_keys (k : String) (l : List (String × String)) :
    (l.lookup k).isSome = true ↔ k ∈ l.map Prod.fst := by
  induction l with
  | nil => simp
  | cons p t ih =>
      obtain ⟨a, b⟩ := p
      by_cases h : k = a
      · subst h
        simp [List.lookup_cons]
      · have hb : (k == a) = false := beq_eq_false_iff_ne.mpr h
        simp [List.lookup_cons, hb, ih, h]

theorem sortKeys_eq_of_perm {l1 l2 : List String} (h : l1.Perm l2) :
    sortKeys l1 = sortKeys l2 := by
  haveI htot : IsTotal String keyLe := ⟨fun a b => le_total (strCodes a) (strCodes b)⟩
  haveI htr : IsTrans String keyLe := ⟨fun a b c h1 h2 => le_trans h1 h2⟩
  haveI hanti : IsAntisymm String keyLe :=
    ⟨fun a b h1 h2 => strCodes_injective (le_antisymm h1 h2)⟩
  exact List.eq_of_perm_of_sorted
    (((List.perm_insertionSort keyLe l1).trans h).trans
      (List.perm_insertionSort keyLe l2).symm)
    (List.sorted_insertionSort keyLe l1)
    (List.sorted_insertionSort keyLe l2)

theorem cacheKey_canonical (name : String) (k1 k2 : List (String × String))
    (h1 : (k1.map Prod.fst).Nodup) (h2 : (k2.map Prod.fst).Nodup)
    (hmap : ∀ k, k1.lookup k = k2.lookup k) :
    cacheKey name k1 = cacheKey name k2 := by
  have hperm : (k1.map Prod.fst).Perm (k2.map Prod.fst) := by
    rw [List.perm_ext_iff_of_nodup h1 h2]
    intro a
    rw [← lookup_isSome_iff_mem_keys, ← lookup_isSome_iff_mem_keys, hmap a]
  have hsort : sortKeys (k1.map Prod.fst) = sortKeys (k2.map Prod.fst) :=
    sortKeys_eq_of_perm hperm
  have hmapeq :
      (sortKeys (k2.map Prod.fst)).map
        (fun k => jsonStringLit k ++ ": " ++ jsonStringLit ((k1.lookup k).getD ""))
      = (sortKeys (k2.map Prod.fst)).map
        (fun k => jsonStringLit k ++ ": " ++ jsonStringLit ((k2.lookup k).getD "")) := by
    apply List.map_congr_left
    intro k _
    rw [hmap k]
  unfold cacheKey dumpsSortKeys
  rw [hsort, hmapeq]

/-- C5 (confirmed): two CachedTool invocations with the same tool name and
    the same argument mapping, in any key order, compute the same cache
    key; and when the first invocation stored its result, a second
    invocation within the TTL window returns the cached value without
    invoking the delegate. -/
theorem C5_cachedTool_idempotent (tool : MTool) (cache : CacheStore) (t0 t1 : ℚ)
    (k1 k2 : List (String × String)) (r : String)
    (hn1 : (k1.map Prod.fst).Nodup) (hn2 : (k2.map Prod.fst).Nodup)
    (hmap : ∀ k, k1.lookup k = k2.lookup k)
    (hmiss : cache.get t0 (cacheKey tool.name k1) = none)
    (hok : tool.impl k1 = .ok r)
    (hle : t0 ≤ t1) (httl : t1 < t0 + DEFAULT_CACHE_TTL) :
    cacheKey tool.name k1 = cacheKey tool.name k2
    ∧ cachedCall tool cache t0 k1
        = (.ok r, cache.set t0 (cacheKey tool.name k1) r DEFAULT_CACHE_TTL, true)
    ∧ cachedCall tool (cachedCall tool cache t0 k1).2.1 t1 k2
        = (.ok r, (cachedCall tool cache t0 k1).2.1, false) := by
  have hkey := cacheKey_canonical tool.name k1 k2 hn1 hn2 hmap
  have hfirst : cachedCall tool cache t0 k1
      = (.ok r, cache.set t0 (cacheKey tool.name k1) r DEFAULT_CACHE_TTL, true) := by
    simp [cachedCall, hmiss, hok]
  refine ⟨hkey, hfirst, ?_⟩
  rw [hfirst]
  have hhit : (cache.set t0 (cacheKey tool.name k1) r DEFAULT_CACHE_TTL).get t1
      (cacheKey tool.name k2) = some r := by
    rw [← hkey]
    simp [CacheStore.set, CacheStore.get, httl]
  simp [cachedCall, hhit]

/-- C5 witness: the same two-argument mapping in both keyword orders, a
    fresh cache, and a second call one hour after the first. -/
theorem C5_witness :
    cacheKey "search" [("query", "rust"), ("lang", "en")]
      = cacheKey "search" [("lang", "en"), ("query", "rust")]
    ∧ cachedCall { name := "search", max_result_length := none
                   impl := fun _ => .ok "result text" } ⟨fun _ => none⟩ 0
        [("query", "rust"), ("lang", "en")]
      = (.ok "result text",
         CacheStore.set ⟨fun _ => none⟩ 0
           (cacheKey "search" [("query", "rust"), ("lang", "en")]) "result text"
           DEFAULT_CACHE_TTL, true)
    ∧ cachedCall { name := "search", max_result_length := none
                   impl := fun _ => .ok "result text" }
        (cachedCall { name := "search", max_result_length := none
                      impl := fun _ => .ok "result text" } ⟨fun _ => none⟩ 0
          [("query", "rust"), ("lang", "en")]).2.1 3600
        [("lang", "en"), ("query", "rust")]
      = (.ok "result text",
         (cachedCall { name := "search", max_result_length := none
                       impl := fun _ => .ok "result text" } ⟨fun _ => none⟩ 0
           [("query", "rust"), ("lang", "en")]).2.1, false) :=
  C5_cachedTool_idempotent
    { name := "search", max_result_length := none, impl := fun _ => .ok "result text" }
    ⟨fun _ => none⟩ 0 3600
    [("query", "rust"), ("lang", "en")] [("lang", "en"), ("query", "rust")]
    "result text"
    (by decide) (by decide)
    (fun k => by
      by_cases hq : k = "query"
      · subst hq; rfl
      · by_cases hl : k = "lang"
        · subst hl; rfl
        · have hb1 : (k == "query") = false := beq_eq_false_iff_ne.mpr hq
          have hb2 : (k == "lang") = false := beq_eq_false_iff_ne.mpr hl
          simp [List.lookup_cons, hb1, hb2])
    rfl rfl (by decide) (by norm_num [DEFAULT_CACHE_TTL])

theorem refill_refill (cap tps : ℚ) (s : RLState) (t1 t2 : ℚ) (htps : 0 < tps)
    (h1 : s.last_refill_time ≤ t1) (h2 : t1 ≤ t2) :
    refillTokens cap tps (refillTokens cap tps s t1) t2 = refillTokens cap tps s t2 := by
  unfold refillTokens
  simp only [RLState.mk.injEq, and_true]
  rcases le_or_lt (s.tokens + (t1 - s.last_refill_time) * tps) cap with hle | hgt
  · rw [min_eq_right hle]
    congr 1
    ring
  · rw [min_eq_left hgt.le]
    have hnn : 0 ≤ (t2 - t1) * tps := mul_nonneg (by linarith) htps.le
    rw [min_eq_left (by linarith), min_eq_left (by nlinarith)]

/-- With exact arithmetic the while loop in RateLimiter.acquire exits after
    a single sleep: after waiting exactly (1 - tokens)/tokensPerSecond and
    refilling, at least one token is available, so the single unrolling in
    rlAcquire is the whole loop. -/
theorem rateLimiter_one_sleep_suffices (cap tps : ℚ) (s1 : RLState) (now : ℚ)
    (htps : 0 < tps) (hcap : 1 ≤ cap) (hlow : s1.tokens < 1)
    (hstamp : s1.last_refill_time = now) :
    ¬ (refillTokens cap tps s1 (now + (1 - s1.tokens) / tps)).tokens < 1 := by
  unfold refillTokens
  rw [hstamp]
  have harith : s1.tokens + (now + (1 - s1.tokens) / tps - now) * tps = 1 := by
    field_simp
    ring
  rw [harith, min_eq_right hcap]
  exact lt_irrefl 1

theorem rlAcquire_spec (cap tps : ℚ) (s : RLState) (now : ℚ)
    (htps : 0 < tps) (hcap : 1 ≤ cap) (hpast : s.last_refill_time ≤ now) :
    now ≤ (rlAcquire cap tps s now).1
    ∧ 1 ≤ (refillTokens cap tps s (rlAcquire cap tps s now).1).tokens
    ∧ (rlAcquire cap tps s now).2.tokens
        = (refillTokens cap tps s (rlAcquire cap tps s now).1).tokens - 1
    ∧ (rlAcquire cap tps s now).2.last_refill_time = (rlAcquire cap tps s now).1 := by
  unfold rlAcquire
  by_cases h : (refillTokens cap tps s now).tokens < 1
  · rw [if_pos h]
    have hw : 0 < (1 - (refillTokens cap tps s now).tokens) / tps :=
      div_pos (by linarith) htps
    have hstamp : (refillTokens cap tps s now).last_refill_time = now := rfl
    have hcomp :
        refillTokens cap tps (refillTokens cap tps s now)
          (now + (1 - (refillTokens cap tps s now).tokens) / tps)
        = refillTokens cap tps s
          (now + (1 - (refillTokens cap tps s now).tokens) / tps) :=
      refill_refill cap tps s now _ htps hpast (by linarith)
    refine ⟨by linarith, ?_, ?_, rfl⟩
    · rw [← hcomp]
      have := rateLimiter_one_sleep_suffices cap tps (refillTokens cap tps s now) now
        htps hcap h hstamp
      linarith [not_lt.mp this]
    · rw [← hcomp]
  · rw [if_neg h]
    exact ⟨le_refl now, not_lt.mp h, rfl, rfl⟩

theorem seqAcquire_invariant (R : ℕ) (hR : 1 ≤ R) (N : ℕ) :
    (seqAcquire R N).1 = max 0 ((N : ℚ) - R) * (60 / R)
    ∧ (seqAcquire R N).2.tokens = max 0 ((R : ℚ) - N)
    ∧ (seqAcquire R N).2.last_refill_time = (seqAcquire R N).1 := by
  have hRQ : (1 : ℚ) ≤ (R : ℚ) := by exact_mod_cast hR
  have hR0 : (0 : ℚ) < R := by linarith
  induction N with
  | zero =>
      refine ⟨?_, ?_, rfl⟩
      · simp [seqAcquire]
      · simp only [seqAcquire, rlInit, Nat.cast_zero, sub_zero]
        rw [max_eq_right (by linarith)]
  | succ n ih =>
      obtain ⟨iht, ihtok, ihlast⟩ := ih
      have hs1 : refillTokens (R : ℚ) ((R : ℚ) / 60) (seqAcquire R n).2 (seqAcquire R n).1
          = { tokens := (seqAcquire R n).2.tokens
              last_refill_time := (seqAcquire R n).1 } := by
        unfold refillTokens
        rw [ihlast]
        simp only [sub_self, zero_mul, add_zero, RLState.mk.injEq, and_true]
        rw [ihtok, min_eq_right]
        exact max_le hR0.le (by linarith [Nat.cast_nonneg (α := ℚ) n])
      by_cases hn : n < R
      · have hn1 : ((n : ℚ)) + 1 ≤ (R : ℚ) := by exact_mod_cast hn
        have htok : (seqAcquire R n).2.tokens = (R : ℚ) - n := by
          rw [ihtok, max_eq_right (by linarith)]
        have hnolt : ¬ (refillTokens (R : ℚ) ((R : ℚ) / 60) (seqAcquire R n).2
            (seqAcquire R n).1).tokens < 1 := by
          rw [hs1]
          simp only [not_lt]
          rw [htok]
          linarith
        have hstep : seqAcquire R (n + 1)
            = ((seqAcquire R n).1,
               { tokens := (seqAcquire R n).2.tokens - 1
                 last_refill_time := (seqAcquire R n).1 }) := by
          show rlAcquire (R : ℚ) ((R : ℚ) / 60) (seqAcquire R n).2 (seqAcquire R n).1 = _
          unfold rlAcquire
          rw [if_neg hnolt, hs1]
        have ht0 : (seqAcquire R n).1 = 0 := by
          rw [iht, max_eq_left (by linarith), zero_mul]
        refine ⟨?_, ?_, ?_⟩
        · rw [hstep, ht0]
          have : max 0 (((n : ℚ) + 1) - R) = 0 := max_eq_left (by linarith)
          push_cast
          rw [this, zero_mul]
        · rw [hstep]
          simp only
          rw [htok]
          have : max 0 ((R : ℚ) - ((n : ℚ) + 1)) = (R : ℚ) - ((n : ℚ) + 1) :=
            max_eq_right (by linarith)
          push_cast
          rw [this]
          ring
        · rw [hstep]
      · have hge : (R : ℚ) ≤ (n : ℚ) := by exact_mod_cast Nat.le_of_not_lt hn
        have htok : (seqAcquire R n).2.tokens = 0 := by
          rw [ihtok, max_eq_left (by linarith)]
        have hlt : (refillTokens (R : ℚ) ((R : ℚ) / 60) (seqAcquire R n).2
            (seqAcquire R n).1).tokens < 1 := by
          rw [hs1]
          simp only
          rw [htok]
          linarith
        have hstep : seqAcquire R (n + 1)
            = ((seqAcquire R n).1 + 60 / R,
               { tokens := 0, last_refill_time := (seqAcquire R n).1 + 60 / R }) := by
          show rlAcquire (R : ℚ) ((R : ℚ) / 60) (seqAcquire R n).2 (seqAcquire R n).1 = _
          unfold rlAcquire
          rw [if_pos hlt]
          simp only [refillTokens, htok, ihlast, sub_self, zero_mul, add_zero]
          simp only [min_eq_right hR0.le, sub_zero, zero_add, add_sub_cancel_left]
          rw [show (1 : ℚ) / ((R : ℚ) / 60) * ((R : ℚ) / 60) = 1 by field_simp]
          rw [min_eq_right hRQ, sub_self]
          simp only [show (1 : ℚ) / ((R : ℚ) / 60) = 60 / (R : ℚ) from by field_simp]
        have ht : (seqAcquire R n).1 = ((n : ℚ) - R) * (60 / R) := by
          rw [iht, max_eq_right (by linarith)]
        refine ⟨?_, ?_, ?_⟩
        · rw [hstep]
          simp only
          rw [ht]
          have : max 0 (((n : ℚ) + 1) - R) = ((n : ℚ) + 1) - R :=
            max_eq_right (by linarith)
          push_cast
          rw [this]
          field_simp
          ring
        · rw [hstep]
          simp only
          have : max 0 ((R : ℚ) - ((n : ℚ) + 1)) = 0 := max_eq_left (by linarith)
          push_cast
          rw [this]
        · rw [hstep]

/-- C4 (confirmed): for a RateLimiter with integer rate R >= 1 (the
    enabled regime of the constructor), capacity R and refill rate R/60
    tokens per second: acquire never completes before at least one token
    has logically accrued at the completion instant, consumes exactly one
    token, and never completes in the past; and N sequential acquire calls
    with no other waits finish no earlier than max(0, (N-R)/(R/60))
    seconds after the start. -/
theorem C4_rateLimiter_acquire (R N : ℕ) (hR : 1 ≤ R) :
    (∀ (s : RLState) (now : ℚ), s.last_refill_time ≤ now →
      now ≤ (rlAcquire (R : ℚ) ((R : ℚ) / 60) s now).1
      ∧ 1 ≤ (refillTokens (R : ℚ) ((R : ℚ) / 60) s
          (rlAcquire (R : ℚ) ((R : ℚ) / 60) s now).1).tokens
      ∧ (rlAcquire (R : ℚ) ((R : ℚ) / 60) s now).2.tokens
          = (refillTokens (R : ℚ) ((R : ℚ) / 60) s
              (rlAcquire (R : ℚ) ((R : ℚ) / 60) s now).1).tokens - 1)
    ∧ max 0 (((N : ℚ) - R) / ((R : ℚ) / 60)) ≤ (seqAcquire R N).1 := by
  have hRQ : (1 : ℚ) ≤ (R : ℚ) := by exact_mod_cast hR
  have hR0 : (0 : ℚ) < (R : ℚ) := by linarith
  have htps : (0 : ℚ) < (R : ℚ) / 60 := by positivity
  constructor
  · intro s now hpast
    obtain ⟨h1, h2, h3, _⟩ := rlAcquire_spec (R : ℚ) ((R : ℚ) / 60) s now htps hRQ hpast
    exact ⟨h1, h2, h3⟩
  · obtain ⟨ht, _, _⟩ := seqAcquire_invariant R hR N
    rw [ht, div_div_eq_mul_div]
    rcases le_total ((N : ℚ) - R) 0 with hx | hx
    · rw [max_eq_left (show ((N : ℚ) - R) * 60 / (R : ℚ) ≤ 0 from
        div_nonpos_of_nonpos_of_nonneg (by nlinarith) hR0.le)]
      rw [max_eq_left hx, zero_mul]
    · rw [max_eq_right (show (0 : ℚ) ≤ ((N : ℚ) - R) * 60 / (R : ℚ) from
        div_nonneg (by nlinarith) hR0.le)]
      rw [max_eq_right hx]
      exact le_of_eq (by ring)

/-- C4 witness: the rate limiter theorem at rate 1 per minute with two
    sequential acquisitions. -/
theorem C4_witness :
    (∀ (s : RLState) (now : ℚ), s.last_refill_time ≤ now →
      now ≤ (rlAcquire ((1 : ℕ) : ℚ) (((1 : ℕ) : ℚ) / 60) s now).1
      ∧ 1 ≤ (refillTokens ((1 : ℕ) : ℚ) (((1 : ℕ) : ℚ) / 60) s
          (rlAcquire ((1 : ℕ) : ℚ) (((1 : ℕ) : ℚ) / 60) s now).1).tokens
      ∧ (rlAcquire ((1 : ℕ) : ℚ) (((1 : ℕ) : ℚ) / 60) s now).2.tokens
          = (refillTokens ((1 : ℕ) : ℚ) (((1 : ℕ) : ℚ) / 60) s
              (rlAcquire ((1 : ℕ) : ℚ) (((1 : ℕ) : ℚ) / 60) s now).1).tokens - 1)
    ∧ max 0 ((((2 : ℕ) : ℚ) - ((1 : ℕ) : ℚ)) / (((1 : ℕ) : ℚ) / 60)) ≤ (seqAcquire 1 2).1 :=
  C4_rateLimiter_acquire 1 2 (by decide)

theorem throttle_inv_step (M : Nat) (s s2 : ThrottleState) (hs : ThrottleStep s s2)
    (hinv : inFlight s + s.semValue = M) : inFlight s2 + s2.semValue = M := by
  cases hs with
  | acquireSem i hi hsem =>
      have hlt : i < s.phases.length := by
        by_contra hc
        rw [List.getElem?_eq_none (Nat.le_of_not_lt hc)] at hi
        exact Option.noConfusion hi
      have helem : s.phases[i] = TaskPhase.waitingPhase := by
        rw [List.getElem?_eq_getElem hlt] at hi
        exact Option.some.inj hi
      unfold inFlight at hinv ⊢
      rw [List.count_set TaskPhase.runningPhase TaskPhase.runningPhase s.phases i hlt, helem]
      simp
      omega
  | releaseSem i hi =>
      have hlt : i < s.phases.length := by
        by_contra hc
        rw [List.getElem?_eq_none (Nat.le_of_not_lt hc)] at hi
        exact Option.noConfusion hi
      have helem : s.phases[i] = TaskPhase.runningPhase := by
        rw [List.getElem?_eq_getElem hlt] at hi
        exact Option.some.inj hi
      have hpos : 0 < s.phases.count TaskPhase.runningPhase := by
        apply List.count_pos_iff_mem.mpr
        rw [← helem]
        exact s.phases.getElem_mem hlt
      unfold inFlight at hinv ⊢
      rw [List.count_set TaskPhase.donePhase TaskPhase.runningPhase s.phases i hlt, helem]
      simp
      omega

theorem throttle_inv_reachable (K M : Nat) (s : ThrottleState)
    (h : Relation.ReflTransGen ThrottleStep (initThrottle K M) s) :
    inFlight s + s.semValue = M := by
  induction h with
  | refl => simp [initThrottle, inFlight, List.count_replicate]
  | tail h1 h2 ih => exact throttle_inv_step M _ _ h2 ih

/-- C9 (confirmed): under the semaphore discipline of
    _throttle_tool_calls, in every state reachable from a turn with K
    wrapped tool calls and a semaphore of max_concurrent_tool_calls = M,
    at most M delegate calls are in flight, for every K. -/
theorem C9_semaphore_bound (K M : Nat) (s : ThrottleState)
    (h : Relation.ReflTransGen ThrottleStep (initThrottle K M) s) :
    inFlight s ≤ M := by
  have := throttle_inv_reachable K M s h
  omega

/-- C9 witness: five wrapped tool calls, a semaphore of two, and the state
    after one wrapper acquired the semaphore. -/
theorem C9_witness :
    inFlight { phases := (List.replicate 5 TaskPhase.waitingPhase).set 0 TaskPhase.runningPhase
               semValue := 2 - 1 } ≤ 2 :=
  C9_semaphore_bound 5 2 _
    (Relation.ReflTransGen.single
      (ThrottleStep.acquireSem (initThrottle 5 2) 0 (by decide) (by decide)))

theorem callTool_found_exists (tools : List (String × MTool)) (tc : ToolCall) (t : MTool)
    (ht : registryGet tools tc.name = some t) :
    ∃ m, callTool tools tc = CallOutcome.appended m := by
  unfold callTool
  rw [ht]
  exact ⟨_, rfl⟩

theorem processToolCalls_ok (tools : List (String × MTool)) :
    ∀ (tcs : List ToolCall) (mem : InContextMemory),
      (∀ tc ∈ tcs, (registryGet tools tc.name).isSome = true) →
      (processToolCalls tools mem tcs).2 = none := by
  intro tcs
  induction tcs with
  | nil =>
      intro mem h
      rfl
  | cons tc rest ih =>
      intro mem h
      obtain ⟨t, ht⟩ := Option.isSome_iff_exists.mp (h tc (List.mem_cons_self tc rest))
      obtain ⟨m, hm⟩ := callTool_found_exists tools tc t ht
      simp only [processToolCalls, hm]
      exact ih (mem.add m) (fun tc2 h2 => h tc2 (List.mem_cons_of_mem tc h2))

theorem runTurns_step_count (cfg : AgentConfig) (oracle : Nat → ChatReply) :
    ∀ (fuel callIdx : Nat) (st : AgentState),
      (runTurns cfg oracle fuel callIdx st).2.1.current_step
        = st.current_step + (runTurns cfg oracle fuel callIdx st).2.2
      ∧ (runTurns cfg oracle fuel callIdx st).2.2 ≤ fuel := by
  intro fuel
  induction fuel with
  | zero =>
      intro callIdx st
      simp [runTurns]
  | succ n ih =>
      intro callIdx st
      simp only [runTurns]
      split
      · simp
      · split
        · split
          · simp
          · split
            · simp
            · split
              · simp
              · simp
        · split
          · refine ⟨?_, ?_⟩
            · simp only
              rw [(ih (callIdx + 1) _).1]
              simp
              omega
            · exact Nat.succ_le_succ ((ih (callIdx + 1) _).2)
          · simp

theorem runTurns_exhausts (cfg : AgentConfig) (oracle : Nat → ChatReply)
    (hcontent : ∀ k, (oracle k).content ≠ none)
    (htools : ∀ k, (oracle k).tool_calls ≠ [])
    (hreg : ∀ k, ∀ tc ∈ (oracle k).tool_calls,
      (registryGet cfg.tool_registry tc.name).isSome = true) :
    ∀ (fuel callIdx : Nat) (st : AgentState),
      (runTurns cfg oracle fuel callIdx st).1
        = .error "StopIteration: Reached maximum number of steps"
      ∧ (runTurns cfg oracle fuel callIdx st).2.2 = fuel := by
  intro fuel
  induction fuel with
  | zero =>
      intro callIdx st
      exact ⟨rfl, rfl⟩
  | succ n ih =>
      intro callIdx st
      simp only [runTurns]
      split
      · rename_i heq
        exact absurd heq (hcontent callIdx)
      · split
        · rename_i htc
          exact absurd htc (htools callIdx)
        · split
          · refine ⟨?_, ?_⟩
            · exact (ih (callIdx + 1) _).1
            · simp only
              rw [(ih (callIdx + 1) _).2]
          · rename_i mem2 e heq
            have h2 := congrArg Prod.snd heq
            rw [processToolCalls_ok cfg.tool_registry (oracle callIdx).tool_calls _
              (hreg callIdx)] at h2
            simp at h2

/-- C2 (corrected): with the two extra conditions the code requires, the
    claim holds: when every completion reply carries text content and
    requests at least one tool invocation whose name is present in the
    registry, run executes exactly max_steps turns and then raises the
    step-budget StopIteration, which propagates; it never returns a normal
    result. (Without those conditions the run aborts earlier with a
    different error: see the counterexample.) -/
theorem C2_step_budget_exhausted (cfg : AgentConfig) (oracle : Nat → ChatReply)
    (kwargs : List (String × String)) (st : AgentState)
    (hS : 1 ≤ cfg.max_steps)
    (hcontent : ∀ k, (oracle k).content ≠ none)
    (htools : ∀ k, (oracle k).tool_calls ≠ [])
    (hreg : ∀ k, ∀ tc ∈ (oracle k).tool_calls,
      (registryGet cfg.tool_registry tc.name).isSome = true) :
    (runAgent cfg oracle kwargs st).1
      = .error "StopIteration: Reached maximum number of steps"
    ∧ (runAgent cfg oracle kwargs st).2.2 = cfg.max_steps := by
  unfold runAgent
  exact runTurns_exhausts cfg oracle hcontent htools hreg cfg.max_steps 0 _

/-- C2 counterexample: max_steps = 2 and a stub that always requests a
    tool call, of a name missing from the (empty) registry: the run aborts
    after one turn with the lookup KeyError, not after two turns with the
    step-budget error, refuting the claim as stated. -/
theorem C2_claim_counterexample :
    (runAgent
      { name := "agent", description := "", model := "m", prompt := "You are a researcher"
        tool_registry := [], max_steps := 2, output_schema := none }
      (fun _ => { content := some "calling a tool"
                  tool_calls := [{ id := "c1", name := "missing_tool", args := [] }]
                  finish_reason := "tool_calls" })
      [] { messages := InContextMemory.init "You are a researcher" 1000000000
           current_step := 0 }).1
      = .error ("KeyError: " ++ "missing_tool")
    ∧ (runAgent
      { name := "agent", description := "", model := "m", prompt := "You are a researcher"
        tool_registry := [], max_steps := 2, output_schema := none }
      (fun _ => { content := some "calling a tool"
                  tool_calls := [{ id := "c1", name := "missing_tool", args := [] }]
                  finish_reason := "tool_calls" })
      [] { messages := InContextMemory.init "You are a researcher" 1000000000
           current_step := 0 }).2.2 = 1 :=
  ⟨rfl, rfl⟩

/-- C2 witness: a registered echo tool, a stub that always calls it with
    content present, and max_steps = 2. -/
theorem C2_witness :
    (runAgent
      { name := "agent", description := "", model := "m", prompt := "p"
        tool_registry := [("echo", { name := "echo", max_result_length := none
                                     impl := fun _ => .ok "echoed" })]
        max_steps := 2, output_schema := none }
      (fun _ => { content := some "calling echo"
                  tool_calls := [{ id := "c1", name := "echo", args := [] }]
                  finish_reason := "tool_calls" })
      [] { messages := InContextMemory.init "p" 1000000000, current_step := 0 }).1
      = .error "StopIteration: Reached maximum number of steps"
    ∧ (runAgent
      { name := "agent", description := "", model := "m", prompt := "p"
        tool_registry := [("echo", { name := "echo", max_result_length := none
                                     impl := fun _ => .ok "echoed" })]
        max_steps := 2, output_schema := none }
      (fun _ => { content := some "calling echo"
                  tool_calls := [{ id := "c1", name := "echo", args := [] }]
                  finish_reason := "tool_calls" })
      [] { messages := InContextMemory.init "p" 1000000000, current_step := 0 }).2.2 = 2 :=
  C2_step_budget_exhausted _ _ [] _ (by decide)
    (fun _ => by simp)
    (fun _ => by simp)
    (fun _ tc h => by
      simp at h
      rw [h]
      rfl)

/-- C8 (corrected): with the finish-reason condition the code requires,
    the claim holds: for a freshly constructed agent (step counter 0, no
    output schema), a first reply carrying text content, no tool calls and
    finish reason stop makes run return that message after exactly one
    turn with the step counter at 1. (A non-stop finish reason instead
    raises: see the counterexample.) -/
theorem C8_first_reply_returns (cfg : AgentConfig) (oracle : Nat → ChatReply)
    (kwargs : List (String × String)) (st : AgentState) (c : String)
    (hstep0 : st.current_step = 0)
    (hmax : 1 ≤ cfg.max_steps)
    (hschema : cfg.output_schema = none)
    (hc : (oracle 0).content = some c)
    (htc : (oracle 0).tool_calls = [])
    (hfr : (oracle 0).finish_reason = "stop") :
    (runAgent cfg oracle kwargs st).1 = .finalMessage (some c) []
    ∧ (runAgent cfg oracle kwargs st).2.2 = 1
    ∧ (runAgent cfg oracle kwargs st).2.1.current_step = 1 := by
  obtain ⟨k, hk⟩ : ∃ k, cfg.max_steps = k + 1 :=
    ⟨cfg.max_steps - 1, (Nat.succ_pred_eq_of_pos hmax).symm⟩
  unfold runAgent
  rw [hk]
  simp only [runTurns, hc, htc, hfr, hschema]
  simp [hstep0]

/-- C8 counterexample: a first reply with content done, no tool calls, but
    finish reason length: run raises the failed-to-stop StopIteration
    instead of returning the content, refuting the claim as stated. -/
theorem C8_claim_counterexample :
    (runAgent
      { name := "agent", description := "", model := "m", prompt := "p"
        tool_registry := [], max_steps := 10, output_schema := none }
      (fun _ => { content := some "done", tool_calls := [], finish_reason := "length" })
      [] { messages := InContextMemory.init "p" 1000000000, current_step := 0 }).1
      = .error ("StopIteration: Agent failed to stop, stop reason - " ++ "length") :=
  rfl

/-- C8 witness: the amended theorem at a stub that immediately stops with
    content done. -/
theorem C8_witness :
    (runAgent
      { name := "agent", description := "", model := "m", prompt := "p"
        tool_registry := [], max_steps := 10, output_schema := none }
      (fun _ => { content := some "done", tool_calls := [], finish_reason := "stop" })
      [] { messages := InContextMemory.init "p" 1000000000, current_step := 0 }).1
      = .finalMessage (some "done") []
    ∧ (runAgent
      { name := "agent", description := "", model := "m", prompt := "p"
        tool_registry := [], max_steps := 10, output_schema := none }
      (fun _ => { content := some "done", tool_calls := [], finish_reason := "stop" })
      [] { messages := InContextMemory.init "p" 1000000000, current_step := 0 }).2.2 = 1
    ∧ (runAgent
      { name := "agent", description := "", model := "m", prompt := "p"
        tool_registry := [], max_steps := 10, output_schema := none }
      (fun _ => { content := some "done", tool_calls := [], finish_reason := "stop" })
      [] { messages := InContextMemory.init "p" 1000000000, current_step := 0 }).2.1.current_step
      = 1 :=
  C8_first_reply_returns _ _ [] _ "done" rfl (by decide) rfl rfl rfl rfl

/-- C10 (confirmed): run clears the message memory at entry (its outcome
    is independent of the incoming messages, depending only on the step
    counter), never resets current_step, and adds exactly the number of
    turns executed, itself bounded by max_steps; hence over any sequence
    of run invocations current_step accumulates the total turn count. -/
theorem C10_current_step_cumulative (cfg : AgentConfig) :
    (∀ (oracle : Nat → ChatReply) (kwargs : List (String × String)) (s1 s2 : AgentState),
      s1.current_step = s2.current_step →
      runAgent cfg oracle kwargs s1 = runAgent cfg oracle kwargs s2)
    ∧ (∀ (oracle : Nat → ChatReply) (kwargs : List (String × String)) (st : AgentState),
      (runAgent cfg oracle kwargs st).2.1.current_step
        = st.current_step + (runAgent cfg oracle kwargs st).2.2
      ∧ (runAgent cfg oracle kwargs st).2.2 ≤ cfg.max_steps)
    ∧ (∀ (runs : List ((Nat → ChatReply) × List (String × String))) (st : AgentState),
      (runSeq cfg runs st).1.current_step = st.current_step + (runSeq cfg runs st).2) := by
  have hrun : ∀ (oracle : Nat → ChatReply) (kwargs : List (String × String)) (st : AgentState),
      (runAgent cfg oracle kwargs st).2.1.current_step
        = st.current_step + (runAgent cfg oracle kwargs st).2.2
      ∧ (runAgent cfg oracle kwargs st).2.2 ≤ cfg.max_steps := by
    intro oracle kwargs st
    unfold runAgent
    exact runTurns_step_count cfg oracle cfg.max_steps 0 _
  refine ⟨?_, hrun, ?_⟩
  · intro oracle kwargs s1 s2 h
    unfold runAgent
    rw [h]
  · intro runs
    induction runs with
    | nil =>
        intro st
        simp [runSeq]
    | cons r rest ih =>
        intro st
        obtain ⟨o, kw⟩ := r
        simp only [runSeq]
        rw [ih ((runAgent cfg o kw st).2.1), (hrun o kw st).1]
        omega

/-- C10 witness: two agent states with the same step counter but different
    message memories produce identical run outcomes (the memory is cleared
    at entry). -/
theorem C10_witness :
    runAgent
      { name := "agent", description := "", model := "m", prompt := "p"
        tool_registry := [], max_steps := 3, output_schema := none }
      (fun _ => { content := some "done", tool_calls := [], finish_reason := "stop" })
      [] { messages := InContextMemory.init "old conversation state" 50, current_step := 4 }
    = runAgent
      { name := "agent", description := "", model := "m", prompt := "p"
        tool_registry := [], max_steps := 3, output_schema := none }
      (fun _ => { content := some "done", tool_calls := [], finish_reason := "stop" })
      [] { messages := InContextMemory.init "another history" 9, current_step := 4 } :=
  (C10_current_step_cumulative _).1 _ [] _ _ rfl
